import Mathlib

/-!
A verification development for the beautifulsoup tree-building core.

The repository snapshot ships the test suites (`src/tests/test_lxml.py`,
`src/bs4/tests/test_html5lib.py`) and a test helper (`src/bs4/testing.py`);
the implementation modules themselves (the `TreeBuilder`, `NodeModel`,
`StrainerFilter` and `EncodingDetector` of the design document `spec.md`)
are not part of the snapshot.  Those missing parts are therefore modelled
here from the design document, faithful to its words, with the shipped
tests fixing the behaviour wherever they speak.  Each such definition
carries a doc comment starting with `Modelled from the spec:`.

The model is a shallow embedding: the node model is an inductive tree,
backend tokenizers are opaque producers of `Event` streams (the design
document's §4.2 `BackendProtocol`), and the tree builder is a fold over
events (§4.3).  Everything is executable, so the theorems below evaluate
on the concrete inputs of the shipped tests.
-/

/-! ## NodeModel (spec §3)

Modelled from the spec: the `NodeModel` component is missing from the
snapshot.  A node is an element (name, ordered attribute mapping,
self-closing flag, owned children), a text leaf, a comment or a
declaration.  Parent/sibling back-references are non-owning relation
pointers recoverable from the ownership tree, so the model keeps only the
ownership structure.  `NodeList` is the owned, ordered child sequence. -/

mutual

inductive Node where
  | element (name : String) (attrs : List (String × String)) (selfClosing : Bool) (children : NodeList)
  | text (s : String)
  | comment (s : String)
  | decl (s : String)

inductive NodeList where
  | nil
  | cons (n : Node) (rest : NodeList)

end

/-- Build an owned child sequence from a plain list. -/
def ofList : List Node → NodeList
  | [] => NodeList.nil
  | n :: rest => NodeList.cons n (ofList rest)

/-- Lexicographic order on character lists by code point. -/
def charListLt : List Char → List Char → Bool
  | [], [] => false
  | [], _ :: _ => true
  | _ :: _, [] => false
  | a :: as, b :: bs =>
    if a.toNat < b.toNat then true
    else if b.toNat < a.toNat then false
    else charListLt as bs

/-- Insert an attribute into a name-sorted attribute list (serialization order). -/
def insertAttr (p : String × String) : List (String × String) → List (String × String)
  | [] => [p]
  | q :: rest => if charListLt q.1.data p.1.data then q :: insertAttr p rest else p :: q :: rest

/-- Sort an attribute mapping by attribute name.

Modelled from the spec: the serialization boundary (§6) requires "attribute
mapping with deterministic ordering"; the shipped test
`test_multiple_values_for_the_same_attribute` fixes the serialized order of
`{b: "20", a: "1"}` as `a="1" b="20"`, i.e. sorted by name. -/
def sortAttrs : List (String × String) → List (String × String)
  | [] => []
  | p :: rest => insertAttr p (sortAttrs rest)

/-- Serialize one attribute as ` name="value"`. -/
def decodeAttr (p : String × String) : String := " " ++ p.1 ++ "=\x22" ++ p.2 ++ "\x22"

mutual

/-- Serialize a node back to markup.

Modelled from the spec: the serialization boundary of §6 (the tests
observe trees through `soup.decode()`).  A self-closing element prints as
`<name/>`, a comment as `<!--content-->`, a declaration as `<!content>`. -/
def decodeNode : Node → String
  | .element name attrs sc children =>
    let a := String.join ((sortAttrs attrs).map decodeAttr)
    if sc then "<" ++ name ++ a ++ "/>"
    else "<" ++ name ++ a ++ ">" ++ decodeList children ++ "</" ++ name ++ ">"
  | .text s => s
  | .comment s => "<!--" ++ s ++ "-->"
  | .decl s => "<!" ++ s ++ ">"

/-- Serialize an owned child sequence. -/
def decodeList : NodeList → String
  | .nil => ""
  | .cons n rest => decodeNode n ++ decodeList rest

end

/-- Serialize a top-level node sequence (the document's children). -/
def decodeAll (ns : List Node) : String := ns.foldl (fun acc n => acc ++ decodeNode n) ""

mutual

/-- Whether a node or any of its descendants is a Comment node. -/
def hasComment : Node → Bool
  | .element _ _ _ children => hasCommentList children
  | .comment _ => true
  | _ => false

/-- Whether any node of an owned child sequence contains a Comment node. -/
def hasCommentList : NodeList → Bool
  | .nil => false
  | .cons n rest => hasComment n || hasCommentList rest

end

/-- Whether any node of a top-level sequence contains a Comment node. -/
def hasCommentIn (ns : List Node) : Bool := ns.any hasComment

/-- Collapse runs of whitespace to a single space (auxiliary; the flag
records whether the previous character was whitespace). -/
def collapseWsAux : Bool → List Char → List Char
  | _, [] => []
  | prevWs, c :: rest =>
    if c.isWhitespace then
      if prevWs then collapseWsAux true rest
      else ' ' :: collapseWsAux true rest
    else c :: collapseWsAux false rest

/-- Collapse runs of whitespace in text content to a single space.

Modelled from the spec: §4.3 `text` transition — "runs of whitespace are
collapsed to a single space at construction time" outside
whitespace-preserving tags. -/
def collapseWs (s : String) : String := String.mk (collapseWsAux false s.data)

/-- First-wins attribute deduplication, auxiliary over the set of names
already seen. -/
def dedupAttrsAux (seen : List String) : List (String × String) → List (String × String)
  | [] => []
  | (k, v) :: rest =>
    if k ∈ seen then dedupAttrsAux seen rest
    else (k, v) :: dedupAttrsAux (k :: seen) rest

/-- Deduplicate an attribute list, keeping the first value seen for each
name and preserving first-insertion order.

Modelled from the spec: §3 Element — "an ordered-insertion mapping from
attribute name to value (with a defined policy for duplicate attribute
names: first occurrence wins, later duplicates are dropped)"; applied by
the builder's `open` transition (§4.3). -/
def dedupAttrs (attrs : List (String × String)) : List (String × String) :=
  dedupAttrsAux [] attrs

/-! ## BackendProtocol (spec §4.2) -/

/-- A parse event emitted by a backend tokenizer.

Modelled from the spec: §4.2's event stream `open(name, attributes)`,
`close(name)`, `text(content)`, `comment(content)`, `declaration(content)`
and `empty_element(name, attributes)`.  `open` is a Lean keyword, so the
constructor is named `start`. -/
inductive Event where
  | start (name : String) (attrs : List (String × String))
  | close (name : String)
  | text (s : String)
  | comment (s : String)
  | declaration (s : String)
  | emptyElement (name : String) (attrs : List (String × String))

/-- The capability surface a backend adapter declares.

Modelled from the spec: §4.2 — `self_closing_tags`, `preserve_whitespace_tags`,
`string_container_tags` and `supports_selective_build`.  The string-container
mapping's target ({verbatim-text, cdata}) is not distinguished here: every
string-container claim in the tests observes a plain Text child. -/
structure TreeBuilderCaps where
  self_closing_tags : List String
  preserve_whitespace_tags : List String
  string_container_tags : List String
  supports_selective_build : Bool

/-! ## StrainerFilter (spec §4.5) -/

/-- A selective-build filter.

Modelled from the spec: §4.5 — a predicate over (name, attributes, text)
matching by exact name, attribute presence/value, and text content,
combined as a logical AND across provided criteria.  The test
`test_soupstrainer` constructs it with a tag name only. -/
structure SoupStrainer where
  name : Option String
  attrs : List (String × String)
  text : Option String

/-- Whether a filter accepts an element, evaluated on open-tag data only
(name and attributes), as §4.5 requires. -/
def SoupStrainer.matchesTag (f : SoupStrainer) (name : String) (attrs : List (String × String)) : Bool :=
  (match f.name with
   | none => true
   | some n => n == name) &&
  f.attrs.all (fun p => attrs.lookup p.1 == some p.2)

/-! ## TreeBuilder (spec §4.3) -/

/-- An entry of the builder's insertion-point stack: one open element,
with children accumulated in reverse.  `kept` records whether the element
was accepted by the active StrainerFilter (always true with no filter). -/
structure Frame where
  name : String
  attrs : List (String × String)
  kept : Bool
  revChildren : List Node

/-- The marker state pushed for a string-container tag (§4.3 `open`):
all subsequent text is routed verbatim into `acc` until the matching
close. -/
structure ContainerState where
  name : String
  attrs : List (String × String)
  kept : Bool
  acc : String

/-- The builder's state: the open-element stack, the completed top-level
nodes (in reverse), and the optional string-container marker state. -/
structure BuildState where
  stack : List Frame
  done : List Node
  container : Option ContainerState

/-- The builder's initial state: empty stack, nothing built. -/
def initState : BuildState := ⟨[], [], none⟩

/-- Whether the current insertion point lies inside kept (filter-accepted)
context: true at top level only when no filter is active. -/
def parentKept (filt : Option SoupStrainer) (stack : List Frame) : Bool :=
  match stack with
  | f :: _ => f.kept
  | [] => filt.isNone

/-- Append a finished node at the current insertion point (top of stack,
else the document's top level); a node not kept by the filter is
discarded. -/
def appendNode (st : BuildState) (n : Node) (kn : Bool) : BuildState :=
  if kn then
    match st.stack with
    | f :: rest => { st with stack := { f with revChildren := n :: f.revChildren } :: rest }
    | [] => { st with done := n :: st.done }
  else st

/-- Implicitly close the topmost open element (§4.3 `close`): the frame
becomes an Element node attached at the enclosing insertion point.  A
frame rejected by the filter contributes its kept children instead of
itself. -/
def closeTop (st : BuildState) : BuildState :=
  match st.stack with
  | [] => st
  | f :: rest =>
    let node := Node.element f.name f.attrs false (ofList f.revChildren.reverse)
    let items := if f.kept then [node] else f.revChildren
    match rest with
    | g :: grest => { st with stack := { g with revChildren := items ++ g.revChildren } :: grest }
    | [] => { st with stack := [], done := items ++ st.done }

/-- Close the `n` topmost open elements. -/
def closeN : Nat → BuildState → BuildState
  | 0, st => st
  | n + 1, st => closeN n (closeTop st)

/-- Whether the current top of stack is a whitespace-preserving tag
(§4.3 `text`). -/
def preservesWs (caps : TreeBuilderCaps) (stack : List Frame) : Bool :=
  match stack with
  | f :: _ => caps.preserve_whitespace_tags.contains f.name
  | [] => false

/-- Whether the first list is a prefix of the second (character lists). -/
def isPrefixOfChars : List Char → List Char → Bool
  | [], _ => true
  | _ :: _, [] => false
  | p :: ps, c :: cs => p == c && isPrefixOfChars ps cs

/-- Recognize declaration content as a doctype or processing instruction.

Modelled from the spec: §4.3 — "a declaration whose content does not match
a recognized doctype/processing-instruction shape is demoted to a
Comment".  The shipped tests fix the shape: `DOCTYPE html ...` is a
doctype, while content with leading whitespace (`test_whitespace_in_doctype`)
or arbitrary text (`test_nonsensical_declaration`) is not. -/
def recognizedDeclaration (s : String) : Bool :=
  isPrefixOfChars "DOCTYPE ".data s.data || isPrefixOfChars "?".data s.data

/-- Whether the filter keeps this element: everything is kept with no
filter, everything inside a kept element is kept, and otherwise the
filter is evaluated on the open-tag data (§4.3 selective build, §4.5). -/
def elementKept (filt : Option SoupStrainer) (stack : List Frame) (name : String)
    (attrs : List (String × String)) : Bool :=
  match filt with
  | none => true
  | some f => parentKept filt stack || f.matchesTag name attrs

/-- One transition of the TreeBuilder state machine.

Modelled from the spec: §4.3 — the whole transition table: string-container
marker state; `open` constructs an Element with first-wins attribute
deduplication and pushes it unless self-closing; `close` pops down to and
including the nearest matching open element (implicitly closing the ones
skipped), is discarded for self-closing names, and is a no-op when nothing
matches; `text` collapses whitespace runs outside preserve_whitespace_tags;
`declaration` content is demoted to a Comment when its shape is not
recognized.  Backends emit no markup events inside a string container
(their tokenizers switch to a raw-text mode), so non-text events there are
no-ops. -/
def step (caps : TreeBuilderCaps) (filt : Option SoupStrainer) (st : BuildState) (ev : Event) : BuildState :=
  match st.container with
  | some c =>
    match ev with
    | .text s => { st with container := some { c with acc := c.acc ++ s } }
    | .close name =>
      if name = c.name then
        appendNode { st with container := none }
          (Node.element c.name c.attrs false (ofList [Node.text c.acc])) c.kept
      else st
    | _ => st
  | none =>
    match ev with
    | .start name attrs =>
      let da := dedupAttrs attrs
      let k := elementKept filt st.stack name da
      if name ∈ caps.string_container_tags then
        { st with container := some ⟨name, da, k, ""⟩ }
      else if name ∈ caps.self_closing_tags then
        appendNode st (Node.element name da true NodeList.nil) k
      else
        { st with stack := ⟨name, da, k, []⟩ :: st.stack }
    | .emptyElement name attrs =>
      let da := dedupAttrs attrs
      appendNode st (Node.element name da true NodeList.nil) (elementKept filt st.stack name da)
    | .close name =>
      if name ∈ caps.self_closing_tags then st
      else if st.stack.any (fun f => f.name = name) then
        closeN (st.stack.findIdx (fun f => f.name = name) + 1) st
      else st
    | .text s =>
      let content := if preservesWs caps st.stack then s else collapseWs s
      appendNode st (Node.text content) (parentKept filt st.stack)
    | .comment s => appendNode st (Node.comment s) (parentKept filt st.stack)
    | .declaration s =>
      let n := if recognizedDeclaration s then Node.decl s else Node.comment s
      appendNode st n (parentKept filt st.stack)

/-- Finish a build: close the string container if still open, then
implicitly close every element left on the stack, and return the
document's top-level nodes in order. -/
def finalize (st : BuildState) : List Node :=
  let st1 :=
    match st.container with
    | some c =>
      appendNode { st with container := none }
        (Node.element c.name c.attrs false (ofList [Node.text c.acc])) c.kept
    | none => st
  let st2 := closeN st1.stack.length st1
  st2.done.reverse

/-- Fold a backend's event stream into a tree.

Modelled from the spec: §4.3 — the TreeBuilder consumes BackendProtocol
events and an optional StrainerFilter; "if selective build is requested
but the active backend's capability flag says it is unsupported, the
entire document is built unfiltered (explicit degraded mode, not a
failure)". -/
def build (caps : TreeBuilderCaps) (filt : Option SoupStrainer) (events : List Event) : List Node :=
  let eff := if caps.supports_selective_build then filt else none
  finalize (events.foldl (step caps eff) initState)

/-! ## Character references (spec §4.3 tie-break policies)

Modelled from the spec: the engines' character-reference decoding (the
engines themselves are opaque event producers absent from the snapshot).
§4.3 fixes two policies: "numeric character references that decode outside
the valid code point range are replaced with the standard replacement
character rather than raising an error"; the shipped tests
(`test_entities_in_attribute_values_converted_during_parsing`,
`test_entity_was_not_finished`, `test_nonexistent_entity`,
`test_entity_out_of_range`) fix that a recognizable reference is decoded
even without its terminating semicolon, while a reference with no
recognizable body is left literal. -/

/-- The standard replacement character U+FFFD. -/
def replacementChar : Char := Char.ofNat 0xFFFD

/-- Whether a numeric value is a valid Unicode scalar value. -/
def isValidScalar (n : Nat) : Bool :=
  decide (n ≤ 0x10FFFF ∧ ¬(0xD800 ≤ n ∧ n ≤ 0xDFFF))

/-- Decode one numeric character reference value: out-of-range values
become the replacement character, never a raw or truncated value and
never an error (§4.3). -/
def numericRefChar (n : Nat) : Char :=
  if isValidScalar n then Char.ofNat n else replacementChar

/-- Value of a decimal digit character. -/
def digitVal (c : Char) : Nat := c.toNat - 48

/-- Value of a hexadecimal digit character. -/
def hexDigitVal (c : Char) : Nat :=
  if 97 ≤ c.toNat then c.toNat - 87
  else if 65 ≤ c.toNat then c.toNat - 55
  else c.toNat - 48

/-- Numeric value of a decimal digit string. -/
def digitsToNat (ds : List Char) : Nat := ds.foldl (fun acc c => acc * 10 + digitVal c) 0

/-- Numeric value of a hexadecimal digit string. -/
def hexToNat (ds : List Char) : Nat := ds.foldl (fun acc c => acc * 16 + hexDigitVal c) 0

/-- Whether a character is a hexadecimal digit. -/
def isHexDigitChar (c : Char) : Bool :=
  c.isDigit || (97 ≤ c.toNat && c.toNat ≤ 102) || (65 ≤ c.toNat && c.toNat ≤ 70)

/-- Strip an expected sequence of characters from the front of a list. -/
def stripChars : List Char → List Char → Option (List Char)
  | [], l => some l
  | _ :: _, [] => none
  | p :: ps, c :: cs => if c = p then stripChars ps cs else none

/-- Drop one optional terminating semicolon. -/
def dropSemi : List Char → List Char
  | ';' :: r => r
  | r => r

/-- Match a known named character reference at the front of the input,
returning its character and the rest (the optional semicolon consumed). -/
def matchNamedEntity (l : List Char) : Option (Char × List Char) :=
  match stripChars ['a', 'm', 'p'] l with
  | some r => some ('&', dropSemi r)
  | none =>
    match stripChars ['l', 't'] l with
    | some r => some ('<', dropSemi r)
    | none =>
      match stripChars ['g', 't'] l with
      | some r => some ('>', dropSemi r)
      | none =>
        match stripChars ['q', 'u', 'o', 't'] l with
        | some r => some ('"', dropSemi r)
        | none => none

/-- Detect the hexadecimal marker of a numeric character reference:
returns whether the reference is hexadecimal and the digit portion. -/
def hexMarkerSplit : List Char → Bool × List Char
  | 'x' :: r => (true, r)
  | 'X' :: r => (true, r)
  | l => (false, l)

/-- Character-reference decoding over a character list, fuel-structured
(the fuel is at least the input length plus one, and each step recurses
on a strict suffix). -/
def decodeEntitiesAux : Nat → List Char → List Char
  | 0, l => l
  | _ + 1, [] => []
  | fuel + 1, '&' :: '#' :: rest =>
    let p := hexMarkerSplit rest
    let digits := p.2.takeWhile (fun c => if p.1 then isHexDigitChar c else c.isDigit)
    if digits.isEmpty then '&' :: '#' :: decodeEntitiesAux fuel rest
    else
      let after := dropSemi (p.2.dropWhile (fun c => if p.1 then isHexDigitChar c else c.isDigit))
      numericRefChar (if p.1 then hexToNat digits else digitsToNat digits) ::
        decodeEntitiesAux fuel after
  | fuel + 1, '&' :: rest =>
    match matchNamedEntity rest with
    | some pr => pr.1 :: decodeEntitiesAux fuel pr.2
    | none => '&' :: decodeEntitiesAux fuel rest
  | fuel + 1, c :: rest => c :: decodeEntitiesAux fuel rest

/-- Decode character references in text content. -/
def decodeEntities (s : String) : String :=
  String.mk (decodeEntitiesAux (s.data.length + 1) s.data)

/-! ## Source-level attribute parsing

Modelled from the spec: the backend adapters' attribute tokenization (the
adapters are absent from the snapshot).  §3 maps every attribute name to a
string value; the shipped tests fix that a bare attribute name gets the
empty string as value (`test_boolean_attribute_with_no_value`, both
builders) and that unquoted values run to the next whitespace
(`test_unquoted_attribute_value`). -/

/-- Whether a character may appear in an attribute name. -/
def isNameChar (c : Char) : Bool := c.isAlphanum || c == '-' || c == '_' || c == ':'

/-- Attribute-list parsing over a character list, fuel-structured. -/
def parseAttrsAux : Nat → List Char → List (String × String)
  | 0, _ => []
  | _ + 1, [] => []
  | fuel + 1, c :: rest =>
    if c.isWhitespace then parseAttrsAux fuel rest
    else if isNameChar c then
      let name := String.mk (c :: rest.takeWhile isNameChar)
      let after := rest.dropWhile isNameChar
      match after with
      | '=' :: q :: v =>
        if q == '\x22' || q == '\x27' then
          (name, String.mk (v.takeWhile (fun d => d != q))) ::
            parseAttrsAux fuel ((v.dropWhile (fun d => d != q)).drop 1)
        else
          (name, String.mk ((q :: v).takeWhile (fun d => !d.isWhitespace))) ::
            parseAttrsAux fuel ((q :: v).dropWhile (fun d => !d.isWhitespace))
      | '=' :: [] => [(name, "")]
      | _ => (name, "") :: parseAttrsAux fuel after
    else parseAttrsAux fuel rest

/-- Parse the attribute portion of a source tag into an ordered
name/value list (duplicates not yet removed; the builder deduplicates). -/
def parseAttrs (s : String) : List (String × String) :=
  parseAttrsAux (s.data.length + 1) s.data

/-! ## The two concrete backend adapters exercised by the shipped tests -/

/-- Capability declaration of the recovery-oriented engine (html5lib).

Modelled from the spec: §4.2 capability flags, fixed by the shipped tests:
`test_soupstrainer` ("The html5lib tree builder does not support
SoupStrainers"), `test_literal_in_textarea` (textarea content is one
literal string, so textarea is a string container), `test_literal_in_script`,
`test_empty_element_tag_with_contents` and `test_fake_self_closing_tag`
(br and link are self-closing). -/
def html5libCaps : TreeBuilderCaps :=
  { self_closing_tags := ["br", "hr", "img", "input", "link", "meta"]
    preserve_whitespace_tags := ["pre", "textarea"]
    string_container_tags := ["script", "style", "textarea", "title"]
    supports_selective_build := false }

/-- Capability declaration of the strict engine adapter (lxml).

Modelled from the spec: §4.2 capability flags, fixed by the shipped tests:
`test_fake_self_closing_tag` (link is self-closing),
`test_literal_in_script` (script is a string container), while
`test_literal_in_textarea` shows this engine parses textarea content as
markup (textarea is preserve-whitespace but not a string container). -/
def lxmlCaps : TreeBuilderCaps :=
  { self_closing_tags := ["br", "hr", "img", "input", "link", "meta"]
    preserve_whitespace_tags := ["pre", "textarea"]
    string_container_tags := ["script", "style"]
    supports_selective_build := true }

/-! ## EncodingDetector (spec §4.1)

Modelled from the spec: the `EncodingDetector` component is missing from
the snapshot.  Bytes and decoded text are sequences of naturals (byte
values / Unicode code points); an encoding is a named total-or-failing
decoder.  The resolution order is §4.1's: (a) byte-order-mark sniffing;
(b) caller-supplied override encodings, trusted if decoding succeeds;
(c) a declared or in-document hint; (d) statistical guessing (the spec
fixes no algorithm and no shipped test exercises it, so this step yields
no confident guess here); (e) a safe single-byte fallback that never
fails. -/

/-- A character encoding: a name and a decoder from bytes to code points
(`none` on fatal decoding errors). -/
structure Encoding where
  name : String
  decode : List Nat → Option (List Nat)

/-- Decode UTF-16 little-endian bytes into code units (surrogate pairs
are not combined; no shipped test exercises astral characters). -/
def utf16leDecode : List Nat → Option (List Nat)
  | [] => some []
  | lo :: hi :: rest =>
    match utf16leDecode rest with
    | some cs => some ((lo + 256 * hi) :: cs)
    | none => none
  | [_] => none

/-- Decode UTF-16 big-endian bytes into code units. -/
def utf16beDecode : List Nat → Option (List Nat)
  | [] => some []
  | hi :: lo :: rest =>
    match utf16beDecode rest with
    | some cs => some ((lo + 256 * hi) :: cs)
    | none => none
  | [_] => none

/-- Whether a byte is a UTF-8 continuation byte. -/
def isContByte (b : Nat) : Bool := 0x80 ≤ b && b < 0xC0

/-- Decode UTF-8 bytes into code points, fuel-structured. -/
def utf8DecodeAux : Nat → List Nat → Option (List Nat)
  | 0, _ => none
  | _ + 1, [] => some []
  | fuel + 1, b :: rest =>
    if b < 0x80 then (utf8DecodeAux fuel rest).map (b :: ·)
    else if b < 0xC0 then none
    else if b < 0xE0 then
      match rest with
      | b2 :: r2 =>
        if isContByte b2 then
          (utf8DecodeAux fuel r2).map (((b - 0xC0) * 64 + (b2 - 0x80)) :: ·)
        else none
      | _ => none
    else if b < 0xF0 then
      match rest with
      | b2 :: b3 :: r3 =>
        if isContByte b2 && isContByte b3 then
          (utf8DecodeAux fuel r3).map
            (((b - 0xE0) * 4096 + (b2 - 0x80) * 64 + (b3 - 0x80)) :: ·)
        else none
      | _ => none
    else if b < 0xF8 then
      match rest with
      | b2 :: b3 :: b4 :: r4 =>
        if isContByte b2 && isContByte b3 && isContByte b4 then
          (utf8DecodeAux fuel r4).map
            (((b - 0xF0) * 262144 + (b2 - 0x80) * 4096 + (b3 - 0x80) * 64 + (b4 - 0x80)) :: ·)
        else none
      | _ => none
    else none

/-- The UTF-8 encoding. -/
def utf8Enc : Encoding := ⟨"utf-8", fun bs => utf8DecodeAux (bs.length + 1) bs⟩

/-- The UTF-16 little-endian encoding. -/
def utf16le : Encoding := ⟨"utf-16le", utf16leDecode⟩

/-- The UTF-16 big-endian encoding. -/
def utf16be : Encoding := ⟨"utf-16be", utf16beDecode⟩

/-- ISO-8859-1: the safe fallback — a superset single-byte encoding that
decodes any byte sequence without error (§4.1 step (e)). -/
def latin1 : Encoding := ⟨"latin-1", fun bs => some bs⟩

/-- ISO-8859-8 (Hebrew): ASCII below 0x80, the Hebrew letter block
0xE0–0xFA mapped onto U+05D0–U+05EA (the range the shipped Hebrew
document exercises), other bytes decoded as themselves. -/
def iso8859_8 : Encoding :=
  ⟨"iso8859-8", fun bs =>
    some (bs.map (fun b =>
      if b < 0x80 then b
      else if 0xE0 ≤ b && b ≤ 0xFA then 0x5D0 + (b - 0xE0)
      else b))⟩

/-- Sniff a byte-order mark (§4.1 step (a)): returns the indicated
encoding and the bytes after the mark. -/
def sniffBOM : List Nat → Option (Encoding × List Nat)
  | 0xEF :: 0xBB :: 0xBF :: rest => some (utf8Enc, rest)
  | 0xFF :: 0xFE :: rest => some (utf16le, rest)
  | 0xFE :: 0xFF :: rest => some (utf16be, rest)
  | _ => none

/-- The outcome of detection: the decoded text, the resolved encoding's
name, and whether the resolution was confident (false only for the
fallback, §4.1's error condition: a low-confidence result, never a
failure). -/
structure DetectionResult where
  text : List Nat
  resolved : String
  confident : Bool

/-- The byte sequence of the ASCII marker `charset=`. -/
def charsetMarker : List Nat := [99, 104, 97, 114, 115, 101, 116, 61]

/-- Whether a byte may appear in an encoding name. -/
def isEncNameByte (b : Nat) : Bool :=
  (48 ≤ b && b ≤ 57) || (65 ≤ b && b ≤ 90) || (97 ≤ b && b ≤ 122) || b == 45

/-- Strip an expected byte sequence from the front of a byte list. -/
def stripBytes : List Nat → List Nat → Option (List Nat)
  | [], l => some l
  | _ :: _, [] => none
  | p :: ps, b :: bs => if b = p then stripBytes ps bs else none

/-- Scan for the in-document `charset=` marker and return the name bytes
after it (§4.1 step (c): a cheap byte-level scan, not a full parse). -/
def scanCharsetAux : List Nat → Option (List Nat)
  | [] => none
  | b :: rest =>
    match stripBytes charsetMarker (b :: rest) with
    | some after => some (after.takeWhile isEncNameByte)
    | none => scanCharsetAux rest

/-- The encodings the detector knows by name. -/
def knownEncodings : List Encoding := [utf8Enc, utf16le, utf16be, iso8859_8, latin1]

/-- Look an encoding up by its declared name. -/
def encodingNamed (s : String) : Option Encoding :=
  knownEncodings.find? (fun e => e.name == s)

/-- The in-document declared-encoding hint, as an Encoding. -/
def findDeclaredEncoding (bytes : List Nat) : Option Encoding :=
  (scanCharsetAux bytes).bind
    (fun nm => encodingNamed (String.mk (nm.map (fun b => Char.ofNat b))))

/-- Step (e): the safe fallback, which never fails, reported as
low-confidence. -/
def fallbackResult (bytes : List Nat) : DetectionResult :=
  ⟨(latin1.decode bytes).getD bytes, latin1.name, false⟩

/-- Steps (c)–(e): the declared or in-document hint, then fallback (the
statistical step (d) yields no confident guess in this model). -/
def tryDeclared (bytes : List Nat) (declared? : Option Encoding) : DetectionResult :=
  match (match declared? with
         | some e => some e
         | none => findDeclaredEncoding bytes) with
  | some e =>
    match e.decode bytes with
    | some t => ⟨t, e.name, true⟩
    | none => fallbackResult bytes
  | none => fallbackResult bytes

/-- Step (b): the caller-supplied override encodings, each trusted
unconditionally if its decoding succeeds without fatal errors. -/
def tryOverrides (bytes : List Nat) (declared? : Option Encoding) : List Encoding → DetectionResult
  | [] => tryDeclared bytes declared?
  | e :: rest =>
    match e.decode bytes with
    | some t => ⟨t, e.name, true⟩
    | none => tryOverrides bytes declared? rest

/-- `detect_and_decode(bytes, declared_encoding?, encoding_overrides?)`
(§4.1): resolution order (a) BOM, (b) overrides, (c) declared/in-document
hint, (d) statistical guess, (e) safe fallback; decoding never fails
outright. -/
def detect_and_decode (bytes : List Nat) (declared? : Option Encoding)
    (overrides : List Encoding) : DetectionResult :=
  match sniffBOM bytes with
  | some pr =>
    match pr.1.decode pr.2 with
    | some t => ⟨t, pr.1.name, true⟩
    | none => tryOverrides bytes declared? overrides
  | none => tryOverrides bytes declared? overrides

/-- Encode one code point as UTF-8 bytes. -/
def encodeUTF8Char (n : Nat) : List Nat :=
  if n < 0x80 then [n]
  else if n < 0x800 then [0xC0 + n / 64, 0x80 + n % 64]
  else if n < 0x10000 then [0xE0 + n / 4096, 0x80 + (n / 64) % 64, 0x80 + n % 64]
  else [0xF0 + n / 262144, 0x80 + (n / 4096) % 64, 0x80 + (n / 64) % 64, 0x80 + n % 64]

/-- Encode a code-point sequence as UTF-8 bytes (the canonical text form
consumers re-encode to). -/
def encodeUTF8 (cs : List Nat) : List Nat :=
  cs.foldr (fun n acc => encodeUTF8Char n ++ acc) []

/-! ## Concrete backend event streams

Modelled from the spec: §4.2 — "a given backend may legitimately diverge
from another backend in which events it emits for the same malformed
input — that divergence is the backend's repair policy".  The engines'
tokenizers are out of scope (§1) and absent from the snapshot, so each
stream below is the event sequence the named engine emits for the named
test input, fixed by that test's expected tree. -/

/-- Events of the recovery-oriented engine (html5lib) for
`<blockquote><p><b>Foo</blockquote><p>Bar`: its repair closes the open
inline and paragraph elements before the blockquote closes and reopens
the `b` element inside the following `p`
(`TestHTML5BuilderInvalidMarkup.test_unclosed_block_level_elements`). -/
def html5libUnclosedBlockEvents : List Event :=
  [.start "blockquote" [], .start "p" [], .start "b" [], .text "Foo",
   .close "b", .close "p", .close "blockquote",
   .start "p" [], .start "b" [], .text "Bar", .close "b", .close "p"]

/-- Events of the strict engine (lxml) for
`<blockquote><p><b>Foo</blockquote><p>Bar`: the raw token sequence; the
builder's close transition (§4.3) implicitly closes `b` and `p`, and no
`b` is reopened
(`TestLXMLBuilderInvalidMarkup.test_unclosed_block_level_elements`). -/
def lxmlUnclosedBlockEvents : List Event :=
  [.start "blockquote" [], .start "p" [], .start "b" [], .text "Foo",
   .close "blockquote", .start "p" [], .text "Bar"]

/-- Events of the html5lib engine for `<! Foo = -8><p>a</p>`: the
nonsensical declaration reaches the builder as a declaration event
(`TestHTML5BuilderInvalidMarkup.test_nonsensical_declaration`). -/
def nonsensicalDeclEvents : List Event :=
  [.declaration " Foo = -8", .start "p" [], .text "a", .close "p"]

/-- Events of the html5lib engine for `<p>one<!DOCTYPE foobar>two</p>`:
the engine drops a doctype token appearing in the body and emits no
declaration event for it at all
(`TestHTML5BuilderInvalidMarkup.test_doctype_in_body` expects
`<p>onetwo</p>`, a tree retaining no trace of the declaration — given
§4.3's builder, which never drops a declaration event it receives, that
expected tree forces the engine to emit none). -/
def doctypeInBodyEvents : List Event :=
  [.start "p" [], .text "one", .text "two", .close "p"]

/-- Events for `<b b="20" a="1" b="10" a="2" a="3" a="4"></b>`, the
attribute portion going through source-level attribute parsing
(`test_multiple_values_for_the_same_attribute`). -/
def duplicateAttrEvents : List Event :=
  [.start "b" (parseAttrs "b=\x2220\x22 a=\x221\x22 b=\x2210\x22 a=\x222\x22 a=\x223\x22 a=\x224\x22"),
   .close "b"]

/-- Events for `<p>A <b>bold</b> statement.</p>`
(`TestHTML5Builder.test_soupstrainer`). -/
def boldStatementEvents : List Event :=
  [.start "p" [], .text "A ", .start "b" [], .text "bold", .close "b",
   .text " statement.", .close "p"]

/-- Events of the html5lib engine for `<br>foo</br>`: the engine treats
the stray `</br>` close tag as another empty `br` element
(`TestHTML5BuilderInvalidMarkup.test_empty_element_tag_with_contents`
expects `<br/>foo<br/>`). -/
def html5libBrEvents : List Event :=
  [.emptyElement "br" [], .text "foo", .emptyElement "br" []]

/-- Events of the lxml engine for `<item><link>http://foo.com/</link></item>`
(`TestLXMLBuilderInvalidMarkup.test_fake_self_closing_tag`). -/
def lxmlFakeSelfClosingEvents : List Event :=
  [.start "item" [], .start "link" [], .text "http://foo.com/",
   .close "link", .close "item"]

/-- The literal javascript of `TestLXMLBuilder.test_literal_in_script`. -/
def scriptLiteral : String := "if (i < 2) \x7b alert(\x22<b>foo</b>\x22); \x7d"

/-- Events of the lxml engine for `<script>...</script>` around
`scriptLiteral`: inside the string container the tokenizer stays in raw
text mode and emits only text. -/
def lxmlScriptEvents : List Event :=
  [.start "script" [], .text scriptLiteral, .close "script"]

/-- Events of the html5lib engine for
`<textarea>Junk like <b> tags and <&<&amp;</textarea>`: raw text with
character references decoded
(`TestHTML5Builder.test_literal_in_textarea`). -/
def html5libTextareaEvents : List Event :=
  [.start "textarea" [],
   .text (decodeEntities "Junk like <b> tags and <&<&amp;"),
   .close "textarea"]

/-- Events of the lxml engine for `<table><td nowrap>foo</td></table>`
(`test_boolean_attribute_with_no_value_gets_empty_value`). -/
def lxmlTdNowrapEvents : List Event :=
  [.start "table" [], .start "td" (parseAttrs "nowrap"), .text "foo",
   .close "td", .close "table"]

/-- Events of the html5lib engine for `<table><td nowrap>foo</td></table>`:
its repair inserts the tbody/tr structure
(`TestHTML5BuilderInvalidMarkup.test_boolean_attribute_with_no_value`). -/
def html5libTdNowrapEvents : List Event :=
  [.start "table" [], .start "tbody" [], .start "tr" [],
   .start "td" (parseAttrs "nowrap"), .text "foo",
   .close "td", .close "tr", .close "tbody", .close "table"]

/-! ## General lemmas about attribute deduplication -/

lemma dedupAttrsAux_lookup (k : String) :
    ∀ (l : List (String × String)) (seen : List String),
      (dedupAttrsAux seen l).lookup k = if k ∈ seen then none else l.lookup k := by
  intro l
  induction l with
  | nil => intro seen; simp [dedupAttrsAux]
  | cons p rest ih =>
    intro seen
    obtain ⟨k', v⟩ := p
    by_cases hk : k' ∈ seen
    · rcases eq_or_ne k k' with h | h
      · subst h
        simp [dedupAttrsAux, hk, ih, List.lookup]
      · have hbeq : (k == k') = false := beq_eq_false_iff_ne.mpr h
        simp [dedupAttrsAux, hk, ih, List.lookup, hbeq]
    · rcases eq_or_ne k k' with h | h
      · subst h
        simp [dedupAttrsAux, hk, List.lookup]
      · have hbeq : (k == k') = false := beq_eq_false_iff_ne.mpr h
        simp [dedupAttrsAux, hk, List.lookup, hbeq, ih, List.mem_cons, h]

lemma dedupAttrs_lookup (attrs : List (String × String)) (k : String) :
    (dedupAttrs attrs).lookup k = attrs.lookup k := by
  simp [dedupAttrs, dedupAttrsAux_lookup]

lemma dedupAttrsAux_sublist :
    ∀ (l : List (String × String)) (seen : List String),
      List.Sublist (dedupAttrsAux seen l) l := by
  intro l
  induction l with
  | nil => intro seen; simp [dedupAttrsAux]
  | cons p rest ih =>
    intro seen
    obtain ⟨k, v⟩ := p
    by_cases hk : k ∈ seen
    · simp only [dedupAttrsAux, if_pos hk]
      exact (ih seen).cons _
    · simp only [dedupAttrsAux, if_neg hk]
      exact (ih (k :: seen)).cons₂ _

lemma dedupAttrsAux_keys :
    ∀ (l : List (String × String)) (seen : List String),
      ((dedupAttrsAux seen l).map Prod.fst).Nodup ∧
        ∀ x ∈ (dedupAttrsAux seen l).map Prod.fst, x ∉ seen := by
  intro l
  induction l with
  | nil => intro seen; simp [dedupAttrsAux]
  | cons p rest ih =>
    intro seen
    obtain ⟨k, v⟩ := p
    by_cases hk : k ∈ seen
    · simp only [dedupAttrsAux, if_pos hk]
      exact ih seen
    · simp only [dedupAttrsAux, if_neg hk, List.map_cons, List.nodup_cons]
      obtain ⟨h1, h2⟩ := ih (k :: seen)
      refine ⟨⟨fun hmem => ?_, h1⟩, ?_⟩
      · exact h2 k hmem (by simp)
      · intro x hx
        simp only [List.mem_cons] at hx
        rcases hx with h | h
        · subst h; exact hk
        · intro hxs
          exact h2 x h (by simp [hxs])

/-! ## Claim theorems -/

/-- C3: for every element whose source tag carries the same attribute
name more than once, the built element keeps the first value seen for
each name (lookups in the deduplicated mapping agree with first-match
lookups in the raw list), drops all later duplicates (the kept names are
distinct), and preserves first-insertion order (the mapping is a sublist
of the raw attribute list); in particular
`<b b="20" a="1" b="10" a="2" a="3" a="4">` yields an element whose
attributes are exactly b ↦ "20", a ↦ "1" (insertion order), serialized
as `<b a="1" b="20"></b>` as the shipped test expects. -/
theorem claim_C3 :
    (∀ (attrs : List (String × String)) (k : String),
        (dedupAttrs attrs).lookup k = attrs.lookup k) ∧
    (∀ attrs : List (String × String), List.Sublist (dedupAttrs attrs) attrs) ∧
    (∀ attrs : List (String × String), ((dedupAttrs attrs).map Prod.fst).Nodup) ∧
    build lxmlCaps none duplicateAttrEvents =
      [Node.element "b" [("b", "20"), ("a", "1")] false NodeList.nil] ∧
    decodeAll (build lxmlCaps none duplicateAttrEvents) = "<b a=\x221\x22 b=\x2220\x22></b>" := by
  refine ⟨dedupAttrs_lookup, ?_, ?_, ?_, ?_⟩
  · intro attrs
    exact dedupAttrsAux_sublist attrs []
  · intro attrs
    exact (dedupAttrsAux_keys attrs []).1
  · rfl
  · rfl

/-- C1 counterexample: for `<blockquote><p><b>Foo</blockquote><p>Bar` the
strict engine (lxml) yields `<blockquote><p><b>Foo</b></p></blockquote><p>Bar</p>`
— the `b` element is not reopened inside the following `p` — so the tree
claimed for every backend is not produced under every backend. -/
theorem claim_C1_counterexample :
    decodeAll (build lxmlCaps none lxmlUnclosedBlockEvents) =
      "<blockquote><p><b>Foo</b></p></blockquote><p>Bar</p>" ∧
    ("<blockquote><p><b>Foo</b></p></blockquote><p>Bar</p>" : String) ≠
      "<blockquote><p><b>Foo</b></p></blockquote><p><b>Bar</b></p>" := by
  exact ⟨rfl, by decide⟩

/-- C1 amended: for `<blockquote><p><b>Foo</blockquote><p>Bar` every
builder closes the open `b` and `p` elements when the `blockquote` close
arrives, but only the recovery-oriented engine (html5lib) reopens a `b`
inside the following `p`, yielding
`<blockquote><p><b>Foo</b></p></blockquote><p><b>Bar</b></p>`; the strict
engine (lxml) yields `<blockquote><p><b>Foo</b></p></blockquote><p>Bar</p>`. -/
theorem claim_C1_amended :
    decodeAll (build html5libCaps none html5libUnclosedBlockEvents) =
      "<blockquote><p><b>Foo</b></p></blockquote><p><b>Bar</b></p>" ∧
    decodeAll (build lxmlCaps none lxmlUnclosedBlockEvents) =
      "<blockquote><p><b>Foo</b></p></blockquote><p>Bar</p>" := by
  exact ⟨rfl, rfl⟩

/-- C2 counterexample: for `<p>one<!DOCTYPE foobar>two</p>` the html5lib
engine produces exactly `<p>onetwo</p>` — the declaration's content is
dropped from the resulting tree and no Comment node holding it appears
anywhere, so declaration content is not always preserved. -/
theorem claim_C2_counterexample :
    build html5libCaps none doctypeInBodyEvents =
      [Node.element "p" [] false (ofList [Node.text "one", Node.text "two"])] ∧
    hasCommentIn (build html5libCaps none doctypeInBodyEvents) = false ∧
    decodeAll (build html5libCaps none doctypeInBodyEvents) = "<p>onetwo</p>" := by
  exact ⟨rfl, rfl, rfl⟩

/-- C2 amended: every declaration event whose content does not match the
recognized doctype/processing-instruction shape is demoted by the builder
to a Comment node holding that content (never dropped), and in particular
`<! Foo = -8><p>a</p>` yields `<!-- Foo = -8--><p>a</p>`; however, a
declaration the engine itself drops before emitting any declaration event
(such as a doctype token inside the body under html5lib) leaves no node
at all. -/
theorem claim_C2_amended :
    (∀ (caps : TreeBuilderCaps) (s : String), recognizedDeclaration s = false →
        build caps none [Event.declaration s] = [Node.comment s]) ∧
    decodeAll (build html5libCaps none nonsensicalDeclEvents) = "<!-- Foo = -8--><p>a</p>" := by
  constructor
  · intro caps s h
    simp [build, step, initState, appendNode, parentKept, finalize, closeN, h]
  · rfl

/-- C2 witness: the amended general statement applied to the nonsensical
declaration content of `test_nonsensical_declaration`. -/
theorem claim_C2_witness :
    recognizedDeclaration " Foo = -8" = false ∧
    build html5libCaps none [Event.declaration " Foo = -8"] = [Node.comment " Foo = -8"] :=
  ⟨by decide, claim_C2_amended.1 html5libCaps " Foo = -8" (by decide)⟩

/-! ## General lemmas about character-reference decoding -/

lemma isValidScalar_of_gt (n : Nat) (h : 0x10FFFF < n) : isValidScalar n = false := by
  simp only [isValidScalar, decide_eq_false_iff_not]
  omega

lemma numericRefChar_of_gt (n : Nat) (h : 0x10FFFF < n) : numericRefChar n = replacementChar := by
  simp [numericRefChar, isValidScalar_of_gt n h]

lemma takeWhile_all_append (p : Char → Bool) (x : Char) (hx : p x = false) :
    ∀ l : List Char, (∀ c ∈ l, p c = true) → (l ++ [x]).takeWhile p = l := by
  intro l
  induction l with
  | nil => intro _; simp [List.takeWhile_cons, hx]
  | cons c cs ih =>
    intro h
    have hc := h c (by simp)
    simp [List.takeWhile_cons, hc, ih (fun a ha => h a (by simp [ha]))]

lemma dropWhile_all_append (p : Char → Bool) (x : Char) (hx : p x = false) :
    ∀ l : List Char, (∀ c ∈ l, p c = true) → (l ++ [x]).dropWhile p = [x] := by
  intro l
  induction l with
  | nil => intro _; simp [List.dropWhile_cons, hx]
  | cons c cs ih =>
    intro h
    have hc := h c (by simp)
    simp [List.dropWhile_cons, hc, ih (fun a ha => h a (by simp [ha]))]

lemma decodeEntitiesAux_nil (fuel : Nat) : decodeEntitiesAux fuel [] = [] := by
  cases fuel <;> simp [decodeEntitiesAux]

lemma hexMarkerSplit_default (d : Char) (l : List Char) (hx : d ≠ 'x') (hX : d ≠ 'X') :
    hexMarkerSplit (d :: l) = (false, d :: l) := by
  unfold hexMarkerSplit
  split
  · next r heq =>
    rw [List.cons.injEq] at heq
    exact absurd heq.1 hx
  · next r heq =>
    rw [List.cons.injEq] at heq
    exact absurd heq.1 hX
  · rfl

lemma decodeEntitiesAux_decimal (fuel : Nat) (d : Char) (ds : List Char)
    (h : ∀ c ∈ d :: ds, c.isDigit = true) :
    decodeEntitiesAux (fuel + 1) ('&' :: '#' :: ((d :: ds) ++ [';'])) =
      numericRefChar (digitsToNat (d :: ds)) :: decodeEntitiesAux fuel [] := by
  have hd : d.isDigit = true := h d (by simp)
  have hx : d ≠ 'x' := by
    intro e; rw [e] at hd; exact absurd hd (by decide)
  have hX : d ≠ 'X' := by
    intro e; rw [e] at hd; exact absurd hd (by decide)
  have htake : List.takeWhile (fun c => c.isDigit) (d :: (ds ++ [';'])) = d :: ds := by
    rw [show d :: (ds ++ [';']) = (d :: ds) ++ [';'] by simp]
    exact takeWhile_all_append _ _ (by decide) _ (fun c hc => h c hc)
  have hdrop : List.dropWhile (fun c => c.isDigit) (d :: (ds ++ [';'])) = [';'] := by
    rw [show d :: (ds ++ [';']) = (d :: ds) ++ [';'] by simp]
    exact dropWhile_all_append _ _ (by decide) _ (fun c hc => h c hc)
  simp only [decodeEntitiesAux, List.cons_append, hexMarkerSplit_default d _ hx hX]
  simp only [if_neg (Bool.false_ne_true), htake, hdrop]
  simp [dropSemi]

lemma decodeEntitiesAux_hex (fuel : Nat) (d : Char) (ds : List Char)
    (h : ∀ c ∈ d :: ds, isHexDigitChar c = true) :
    decodeEntitiesAux (fuel + 1) ('&' :: '#' :: 'x' :: ((d :: ds) ++ [';'])) =
      numericRefChar (hexToNat (d :: ds)) :: decodeEntitiesAux fuel [] := by
  have htake : List.takeWhile (fun c => isHexDigitChar c) (d :: (ds ++ [';'])) = d :: ds := by
    rw [show d :: (ds ++ [';']) = (d :: ds) ++ [';'] by simp]
    exact takeWhile_all_append _ _ (by decide) _ (fun c hc => h c hc)
  have hdrop : List.dropWhile (fun c => isHexDigitChar c) (d :: (ds ++ [';'])) = [';'] := by
    rw [show d :: (ds ++ [';']) = (d :: ds) ++ [';'] by simp]
    exact dropWhile_all_append _ _ (by decide) _ (fun c hc => h c hc)
  simp only [decodeEntitiesAux, List.cons_append, hexMarkerSplit]
  simp [htake, hdrop, dropSemi]

/-- C4: every numeric character reference whose value lies outside the
valid Unicode code point range produces exactly one U+FFFD replacement
character — in general for any decimal digit string and any hexadecimal
digit string decoding beyond U+10FFFF, and in particular for the shipped
tests' `&#10000000000000;` and `&#x1000000000000;` — never a raw or
truncated value and never an error. -/
theorem claim_C4 :
    (∀ n : Nat, 0x10FFFF < n → numericRefChar n = replacementChar) ∧
    (∀ (d : Char) (ds : List Char), (∀ c ∈ d :: ds, c.isDigit = true) →
        0x10FFFF < digitsToNat (d :: ds) →
        decodeEntities (String.mk ('&' :: '#' :: ((d :: ds) ++ [';']))) =
          String.mk [replacementChar]) ∧
    (∀ (d : Char) (ds : List Char), (∀ c ∈ d :: ds, isHexDigitChar c = true) →
        0x10FFFF < hexToNat (d :: ds) →
        decodeEntities (String.mk ('&' :: '#' :: 'x' :: ((d :: ds) ++ [';']))) =
          String.mk [replacementChar]) ∧
    decodeEntities "&#10000000000000;" = String.mk [replacementChar] ∧
    decodeEntities "&#x1000000000000;" = String.mk [replacementChar] := by
  refine ⟨numericRefChar_of_gt, ?_, ?_, rfl, rfl⟩
  · intro d ds h hgt
    simp only [decodeEntities]
    rw [decodeEntitiesAux_decimal _ d ds h]
    rw [decodeEntitiesAux_nil, numericRefChar_of_gt _ hgt]
  · intro d ds h hgt
    simp only [decodeEntities]
    rw [decodeEntitiesAux_hex _ d ds h]
    rw [decodeEntitiesAux_nil, numericRefChar_of_gt _ hgt]

/-- C4 witness: the general out-of-range statement applied to the decimal
digit string of `test_entity_out_of_range`. -/
theorem claim_C4_witness :
    (∀ c ∈ ('1' :: "0000000000000".data), c.isDigit = true) ∧
    0x10FFFF < digitsToNat ('1' :: "0000000000000".data) ∧
    decodeEntities (String.mk ('&' :: '#' :: (('1' :: "0000000000000".data) ++ [';']))) =
      String.mk [replacementChar] :=
  ⟨by decide, by decide, claim_C4.2.1 '1' "0000000000000".data (by decide) (by decide)⟩

/-- C5 counterexample: the input `<p>&lt;Hello&gt` ends in the partial
reference `&gt`; leaving it as literal source characters would give the
text `<Hello&gt`, but the html5lib engine completes it, producing
`<Hello>` (the shipped `test_entity_was_not_finished` expects exactly
that), so the partial reference is not left literal. -/
theorem claim_C5_counterexample :
    decodeEntities "&lt;Hello&gt" = "<Hello>" ∧ ("<Hello>" : String) ≠ "<Hello&gt" :=
  ⟨rfl, by decide⟩

/-- C5 amended: a partial character reference with a recognizable body is
completed rather than left literal — `&gt` at end of input decodes to `>`
and the unterminated numeric reference in `pi&#241ata` decodes to ñ —
while a reference with no recognizable body (`&#bar;`) is left in the
text exactly as the literal source characters. -/
theorem claim_C5_amended :
    decodeEntities "&lt;Hello&gt" = "<Hello>" ∧
    decodeEntities "pi&#241ata" = "piñata" ∧
    decodeEntities "foo&#bar;baz" = "foo&#bar;baz" :=
  ⟨rfl, rfl, rfl⟩

/-- C6: whenever the active backend reports the selective-build
capability as unsupported, building with any StrainerFilter produces
exactly the same full, unfiltered tree as building without a filter; in
particular a filter matching tag name `b` applied to
`<p>A <b>bold</b> statement.</p>` under the html5lib backend yields the
full document. -/
theorem claim_C6 :
    (∀ (caps : TreeBuilderCaps) (f : SoupStrainer) (events : List Event),
        caps.supports_selective_build = false →
        build caps (some f) events = build caps none events) ∧
    build html5libCaps (some ⟨some "b", [], none⟩) boldStatementEvents =
      build html5libCaps none boldStatementEvents ∧
    decodeAll (build html5libCaps (some ⟨some "b", [], none⟩) boldStatementEvents) =
      "<p>A <b>bold</b> statement.</p>" := by
  refine ⟨?_, rfl, rfl⟩
  intro caps f events h
  simp [build, h]

/-- C6 witness: the degraded mode applied to the html5lib backend, whose
capability flag reports selective build unsupported. -/
theorem claim_C6_witness :
    html5libCaps.supports_selective_build = false ∧
    build html5libCaps (some ⟨some "b", [], none⟩) boldStatementEvents =
      build html5libCaps none boldStatementEvents :=
  ⟨rfl, claim_C6.1 html5libCaps ⟨some "b", [], none⟩ boldStatementEvents rfl⟩

/-- C7 counterexample: for `<br>foo</br>` the html5lib engine produces
`<br/>foo<br/>` — the explicit close tag of the self-closing `br` becomes
a second empty `br` element rather than being discarded — so the
open/close pair is not equivalent to one self-closing element with the
content as following siblings. -/
theorem claim_C7_counterexample :
    decodeAll (build html5libCaps none html5libBrEvents) = "<br/>foo<br/>" ∧
    ("<br/>foo<br/>" : String) ≠ "<br/>foo" :=
  ⟨rfl, by decide⟩

/-- C7 amended: for an element name in the active backend's self-closing
tag set (and not a string container), an open/close pair written in
source builds the element as self-closing with no children, the enclosed
content becomes a following sibling, and the builder discards the
explicit close event as a no-op — as the lxml engine's
`<item><link>http://foo.com/</link></item>` shows; the html5lib engine,
however, turns the stray `</br>` of `<br>foo</br>` into a second empty
`br` element instead of discarding it. -/
theorem claim_C7_amended :
    (∀ (caps : TreeBuilderCaps) (name : String) (attrs : List (String × String)) (s : String),
        name ∉ caps.string_container_tags → name ∈ caps.self_closing_tags →
        build caps none [Event.start name attrs, Event.text s, Event.close name] =
          [Node.element name (dedupAttrs attrs) true NodeList.nil, Node.text (collapseWs s)]) ∧
    decodeAll (build lxmlCaps none lxmlFakeSelfClosingEvents) =
      "<item><link/>http://foo.com/</item>" := by
  constructor
  · intro caps name attrs s h1 h2
    simp [build, step, initState, appendNode, elementKept, parentKept, preservesWs,
      finalize, closeN, h1, h2]
  · rfl

/-- C7 witness: the amended general statement applied to the
self-closing `link` tag of the lxml backend. -/
theorem claim_C7_witness :
    ("link" ∉ lxmlCaps.string_container_tags ∧ "link" ∈ lxmlCaps.self_closing_tags) ∧
    build lxmlCaps none [Event.start "link" [], Event.text "x", Event.close "link"] =
      [Node.element "link" [] true NodeList.nil, Node.text "x"] :=
  ⟨⟨by decide, by decide⟩,
   claim_C7_amended.1 lxmlCaps "link" [] "x" (by decide) (by decide)⟩

lemma foldl_text_events (caps : TreeBuilderCaps) (filt : Option SoupStrainer) :
    ∀ (texts : List String) (stack : List Frame) (done : List Node) (c : ContainerState),
      List.foldl (step caps filt) ⟨stack, done, some c⟩ (texts.map Event.text) =
        ⟨stack, done, some { c with acc := texts.foldl (fun a s => a ++ s) c.acc }⟩ := by
  intro texts
  induction texts with
  | nil => intro stack done c; simp
  | cons t ts ih =>
    intro stack done c
    simp only [List.map_cons, List.foldl_cons, step]
    exact ih stack done { c with acc := c.acc ++ t }

/-- C8: for every element whose name is in the active backend's
string-container tag set, all content up to the matching close tag is
stored verbatim as a single Text child (the concatenation of the raw text
events, with nothing else among the children), so markup-looking content
inside it is never tokenized into element nodes; in particular the lxml
script test's javascript — which contains `<b>` markup — is kept as the
script element's single literal string, and the html5lib textarea test's
content is the single Text child `Junk like <b> tags and <&<&`. -/
theorem claim_C8 :
    (∀ (caps : TreeBuilderCaps) (name : String) (attrs : List (String × String))
        (texts : List String),
        name ∈ caps.string_container_tags →
        build caps none (Event.start name attrs :: (texts.map Event.text ++ [Event.close name])) =
          [Node.element name (dedupAttrs attrs) false
            (ofList [Node.text (texts.foldl (fun a s => a ++ s) "")])]) ∧
    build lxmlCaps none lxmlScriptEvents =
      [Node.element "script" [] false (ofList [Node.text scriptLiteral])] ∧
    decodeAll (build lxmlCaps none lxmlScriptEvents) =
      "<script>" ++ scriptLiteral ++ "</script>" ∧
    build html5libCaps none html5libTextareaEvents =
      [Node.element "textarea" [] false (ofList [Node.text "Junk like <b> tags and <&<&"])] := by
  refine ⟨?_, rfl, rfl, rfl⟩
  intro caps name attrs texts h
  simp only [build, ite_self, List.foldl_cons, List.foldl_append]
  simp only [step, initState, elementKept, if_pos h]
  rw [foldl_text_events caps none texts [] [] ⟨name, dedupAttrs attrs, true, ""⟩]
  simp [step, appendNode, finalize, closeN]

/-- C8 witness: the general string-container statement applied to the
lxml backend's script tag. -/
theorem claim_C8_witness :
    "script" ∈ lxmlCaps.string_container_tags ∧
    build lxmlCaps none
        (Event.start "script" [] :: ([scriptLiteral].map Event.text ++ [Event.close "script"])) =
      [Node.element "script" [] false
        (ofList [Node.text ([scriptLiteral].foldl (fun a s => a ++ s) "")])] :=
  ⟨by decide, claim_C8.1 lxmlCaps "script" [] [scriptLiteral] (by decide)⟩

/-! ## General lemmas about C9 and C10 -/

/-- C9 counterexample: the byte input `FF FE 41 00` carries a UTF-16-LE
byte-order mark; the caller-supplied override `latin-1` decodes it
without error, yet the resolved encoding is `utf-16le`, not the override
— the BOM takes precedence over the override. -/
theorem claim_C9_counterexample :
    (detect_and_decode [0xFF, 0xFE, 0x41, 0x00] none [latin1]).resolved = "utf-16le" ∧
    latin1.decode [0xFF, 0xFE, 0x41, 0x00] = some [0xFF, 0xFE, 0x41, 0x00] ∧
    ("utf-16le" : String) ≠ "latin-1" :=
  ⟨rfl, rfl, by decide⟩

/-- C9 amended: for every byte input without a recognized byte-order
mark, if the caller-supplied override encoding decodes it without fatal
errors then the resolved encoding is the override, and re-encoding the
resulting text to UTF-8 equals decoding the original bytes with the
override and encoding that text to UTF-8 (lossless transcoding). -/
theorem claim_C9_amended :
    ∀ (bytes : List Nat) (e : Encoding) (t : List Nat),
      sniffBOM bytes = none → e.decode bytes = some t →
      detect_and_decode bytes none [e] = ⟨t, e.name, true⟩ ∧
      encodeUTF8 (detect_and_decode bytes none [e]).text = encodeUTF8 t := by
  intro bytes e t h1 h2
  have hd : detect_and_decode bytes none [e] = ⟨t, e.name, true⟩ := by
    simp [detect_and_decode, h1, tryOverrides, h2]
  exact ⟨hd, by rw [hd]⟩

/-- C9 witness: the amended statement applied to the Hebrew bytes of
`test_real_hebrew_document` with the `iso8859-8` override. -/
theorem claim_C9_witness :
    sniffBOM [0xF9, 0xEC, 0xE5, 0xED] = none ∧
    iso8859_8.decode [0xF9, 0xEC, 0xE5, 0xED] = some [0x5E9, 0x5DC, 0x5D5, 0x5DD] ∧
    detect_and_decode [0xF9, 0xEC, 0xE5, 0xED] none [iso8859_8] =
      ⟨[0x5E9, 0x5DC, 0x5D5, 0x5DD], "iso8859-8", true⟩ :=
  ⟨rfl, rfl,
   (claim_C9_amended [0xF9, 0xEC, 0xE5, 0xED] iso8859_8 [0x5E9, 0x5DC, 0x5D5, 0x5DD] rfl rfl).1⟩

lemma not_ws_of_nameChar (c : Char) (h : isNameChar c = true) : c.isWhitespace = false := by
  cases hw : c.isWhitespace
  · rfl
  · exfalso
    have hcases : ((c = ' ' ∨ c = '\t') ∨ c = '\r') ∨ c = '\n' := by
      simpa [Char.isWhitespace] using hw
    rcases hcases with ((h1 | h1) | h1) | h1 <;> (subst h1; exact absurd h (by decide))

lemma takeWhile_all (p : Char → Bool) :
    ∀ l : List Char, (∀ c ∈ l, p c = true) → l.takeWhile p = l := by
  intro l
  induction l with
  | nil => intro _; rfl
  | cons c cs ih =>
    intro h
    simp [List.takeWhile_cons, h c (by simp), ih (fun a ha => h a (by simp [ha]))]

lemma dropWhile_all (p : Char → Bool) :
    ∀ l : List Char, (∀ c ∈ l, p c = true) → l.dropWhile p = [] := by
  intro l
  induction l with
  | nil => intro _; rfl
  | cons c cs ih =>
    intro h
    simp [List.dropWhile_cons, h c (by simp), ih (fun a ha => h a (by simp [ha]))]

lemma parseAttrsAux_nil (fuel : Nat) : parseAttrsAux fuel [] = [] := by
  cases fuel <;> simp [parseAttrsAux]

/-- C10: every attribute written in source as a bare name (no `=` and no
value) is parsed as that name mapped to the empty string — in general for
any nonempty name of attribute-name characters — and under both backends
`<table><td nowrap>foo</td></table>` builds a `td` element whose
`nowrap` attribute is the empty string. -/
theorem claim_C10 :
    (∀ (c : Char) (cs : List Char), (∀ d ∈ c :: cs, isNameChar d = true) →
        parseAttrs (String.mk (c :: cs)) = [(String.mk (c :: cs), "")]) ∧
    build lxmlCaps none lxmlTdNowrapEvents =
      [Node.element "table" [] false
        (ofList [Node.element "td" [("nowrap", "")] false (ofList [Node.text "foo"])])] ∧
    build html5libCaps none html5libTdNowrapEvents =
      [Node.element "table" [] false
        (ofList [Node.element "tbody" [] false
          (ofList [Node.element "tr" [] false
            (ofList [Node.element "td" [("nowrap", "")] false
              (ofList [Node.text "foo"])])])])] := by
  refine ⟨?_, rfl, rfl⟩
  intro c cs h
  have hc : isNameChar c = true := h c (by simp)
  have hw : c.isWhitespace = false := not_ws_of_nameChar c hc
  have htail : ∀ d ∈ cs, isNameChar d = true := fun d hd => h d (by simp [hd])
  simp only [parseAttrs]
  simp only [parseAttrsAux, hw, hc, if_pos, if_neg, Bool.false_eq_true, if_false,
    takeWhile_all _ cs htail, dropWhile_all _ cs htail]

/-- C10 witness: the general bare-attribute statement applied to
`nowrap`. -/
theorem claim_C10_witness :
    (∀ d ∈ ('n' :: "owrap".data), isNameChar d = true) ∧
    parseAttrs (String.mk ('n' :: "owrap".data)) = [(String.mk ('n' :: "owrap".data), "")] :=
  ⟨by decide, claim_C10.1 'n' "owrap".data (by decide)⟩
